import Mathlib

/-!
Verification of the portfolio content-management backend (src/index.js).

The document store, the bcrypt credential hash and the JWT signer are
external collaborators of the source; they are shallowly embedded here as
executable Lean functions: the store as explicit record lists threaded
through every handler, bcrypt as a deterministic tagged hash, and JWT as a
token string carrying the embedded id, the expiry and a signature string
derived from the secret.  Every handler is translated line by line from
src/index.js.
-/

namespace Portfolio

/-- About document (AboutSchema): title and text. -/
structure AboutRec where
  title : String
  text : String
deriving DecidableEq, Repr

/-- Project document (ProjectSchema).  Fields are optional strings as in the
schemaless payloads; `createdAt` comes from the timestamps option. -/
structure ProjectRec where
  id : Nat
  title : Option String
  description : Option String
  tech : Option String
  link : Option String
  image : Option String
  createdAt : Nat
deriving DecidableEq, Repr

/-- Experience document (ExperienceSchema). -/
structure ExperienceRec where
  id : Nat
  role : Option String
  company : Option String
  duration : Option String
  description : Option String
  createdAt : Nat
deriving DecidableEq, Repr

/-- Skill document (SkillSchema): a unique name. -/
structure SkillRec where
  name : String
deriving DecidableEq, Repr

/-- Contact submission document (SubmissionSchema). -/
structure SubmissionRec where
  id : Nat
  name : String
  email : String
  message : String
  date : Nat
deriving DecidableEq, Repr

/-- Administrator document (AdminSchema): unique email, hashed password. -/
structure AdminRec where
  id : Nat
  email : String
  password : String
deriving DecidableEq, Repr

/-- The document store: one list per collection, plus a fresh-id counter
modelling ObjectId generation. -/
structure Store where
  abouts : List AboutRec
  projects : List ProjectRec
  experiences : List ExperienceRec
  skills : List SkillRec
  submissions : List SubmissionRec
  admins : List AdminRec
  nextId : Nat
deriving DecidableEq, Repr

/-- The empty store. -/
def emptyStore : Store :=
  { abouts := [], projects := [], experiences := [], skills := [],
    submissions := [], admins := [], nextId := 0 }

/-- bcrypt.hashSync modelled as a deterministic tagged hash: the output
carries a scheme/cost header in front of the input, so it is never equal to
the plaintext. -/
def bcryptHash (cost : Nat) (plain : String) : String :=
  "$2b$" ++ toString cost ++ "$" ++ plain

/-- bcrypt.compareSync modelled against the deterministic hash. -/
def bcryptCompare (plain hashed : String) : Bool :=
  hashed == bcryptHash 10 plain

/-- Split a character list at every occurrence of the separator, the
semantics of the JavaScript split with a one-character separator. -/
def splitChar (sep : Char) : List Char → List (List Char)
  | [] => [[]]
  | c :: cs =>
    match splitChar sep cs with
    | [] => if c == sep then [[], []] else [[c]]
    | g :: gs => if c == sep then [] :: g :: gs else (c :: g) :: gs

/-- JavaScript string split with a one-character separator. -/
def jsSplit (sep : Char) (s : String) : List String :=
  (splitChar sep s.toList).map String.mk

/-- Whether the second list begins with the first. -/
def hasLead : List Char → List Char → Bool
  | [], _ => true
  | _ :: _, [] => false
  | a :: as, b :: bs => a == b && hasLead as bs

/-- JavaScript startsWith for the literal "Bearer ". -/
def startsWithBearer (s : String) : Bool :=
  hasLead "Bearer ".toList s.toList

/-- The value of one decimal digit character. -/
def digitVal (c : Char) : Option Nat :=
  if c == '0' then some 0 else if c == '1' then some 1
  else if c == '2' then some 2 else if c == '3' then some 3
  else if c == '4' then some 4 else if c == '5' then some 5
  else if c == '6' then some 6 else if c == '7' then some 7
  else if c == '8' then some 8 else if c == '9' then some 9 else none

/-- Parse a nonempty run of decimal digits. -/
def digitsToNat (acc : Nat) : List Char → Option Nat
  | [] => some acc
  | c :: cs =>
    match digitVal c with
    | some d => digitsToNat (acc * 10 + d) cs
    | none => none

/-- Parse a decimal number from a character list. -/
def parseNat : List Char → Option Nat
  | [] => none
  | l => digitsToNat 0 l

/-- The character of one decimal digit. -/
def digitChar (d : Nat) : Char :=
  if d == 0 then '0' else if d == 1 then '1' else if d == 2 then '2'
  else if d == 3 then '3' else if d == 4 then '4' else if d == 5 then '5'
  else if d == 6 then '6' else if d == 7 then '7' else if d == 8 then '8'
  else '9'

/-- Decimal digits of a number, most significant first; fuel-driven so the
recursion is structural. -/
def natDigitsAux : Nat → Nat → List Char → List Char
  | 0, _, acc => acc
  | fuel + 1, n, acc =>
    if n < 10 then digitChar n :: acc
    else natDigitsAux fuel (n / 10) (digitChar (n % 10) :: acc)

/-- Decimal rendering of a number. -/
def natToString (n : Nat) : String :=
  String.mk (natDigitsAux (n + 1) n [])

/-- The signature part of a signed token, a function of the secret and the
signed payload (id and expiry). -/
def sigOf (secret : String) (id exp : Nat) : String :=
  "sig(" ++ secret ++ "," ++ natToString id ++ "," ++ natToString exp ++ ")"

/-- jwt.sign modelled: the token string is id.exp.signature. -/
def signToken (secret : String) (id exp : Nat) : String :=
  natToString id ++ "." ++ natToString exp ++ "." ++ sigOf secret id exp

/-- Parse a token string into its embedded id, expiry and signature. -/
def parseToken (s : String) : Option (Nat × Nat × String) :=
  match splitChar '.' s.toList with
  | [a, b, c] =>
    match parseNat a, parseNat b with
    | some id, some exp => some (id, exp, String.mk c)
    | _, _ => none
  | _ => none

/-- The administrator identifier embedded in a token, when the token parses. -/
def tokenId (s : String) : Option Nat :=
  (parseToken s).map (fun t => t.1)

/-- Whether the token carries a signature valid for the given secret.
A token that does not even parse has no valid signature. -/
def tokenSigOk (s secret : String) : Bool :=
  match parseToken s with
  | none => false
  | some (id, exp, sig) => sig == sigOf secret id exp

/-- Whether the token expiry has passed at the given clock. -/
def tokenExpired (s : String) (now : Nat) : Bool :=
  match parseToken s with
  | none => false
  | some (_, exp, _) => exp ≤ now

/-- jwt.verify modelled: returns the embedded id when the signature matches
the secret and the expiry has not passed, otherwise fails. -/
def jwtVerify (s secret : String) (now : Nat) : Option Nat :=
  match parseToken s with
  | none => none
  | some (id, exp, sig) =>
    if sig == sigOf secret id exp ∧ now < exp then some id else none

/-- The bearer token extracted from the Authorization header, following the
source: the header must start with "Bearer ", and the token is the second
space-separated part. -/
def bearerToken (header : Option String) : Option String :=
  match header with
  | none => none
  | some h =>
    if startsWithBearer h then some ((jsSplit ' ' h).getD 1 "") else none

/-- Result of the authentication middleware. -/
inductive AuthResult where
  | missing
  | invalid
  | ok (adminId : Nat)
deriving DecidableEq, Repr

/-- The 401 message sent when no bearer token is present. -/
def missingTokenMsg : String := "Unauthorized: Missing Token"

/-- The 401 message sent when the token fails verification. -/
def invalidTokenMsg : String := "Unauthorized: Invalid or Expired Token"

/-- The `authenticate` middleware of src/index.js.  It runs with the ambient
document store in scope (the mongoose models are globals), so the store is a
parameter, but the source never reads it: the decision depends only on the
Authorization header, the signing secret and the clock. -/
def authenticate (_store : Store) (secret : String) (now : Nat)
    (header : Option String) : AuthResult :=
  match header with
  | none => AuthResult.missing
  | some h =>
    if startsWithBearer h then
      match jwtVerify ((jsSplit ' ' h).getD 1 "") secret now with
      | some id => AuthResult.ok id
      | none => AuthResult.invalid
    else AuthResult.missing

/-- JSON response bodies produced by the handlers. -/
inductive Body where
  | about (a : AboutRec)
  | names (ns : List String)
  | project (p : ProjectRec)
  | projectOrNull (p : Option ProjectRec)
  | experience (e : ExperienceRec)
  | experienceOrNull (e : Option ExperienceRec)
  | msg (m : String)
  | token (t : String)
  | content (about : AboutRec) (projects : List ProjectRec)
      (experience : List ExperienceRec) (skills : List String)
  | submissions (ss : List SubmissionRec)
deriving DecidableEq, Repr

/-- An HTTP-shaped response: a 200 JSON body, or a status and message. -/
inductive Resp where
  | ok (b : Body)
  | error (status : Nat) (message : String)
deriving DecidableEq, Repr

/-- Whether a response is an error response. -/
def Resp.isErr : Resp → Bool
  | Resp.ok _ => false
  | Resp.error _ _ => true

/-- Request body of PUT /about. -/
structure AboutBody where
  title : String
  text : String
deriving DecidableEq, Repr

/-- Form fields of POST /projects and PUT /projects/:id (absent fields are
`none`); the optional uploaded file is passed separately. -/
structure ProjectBody where
  title : Option String
  description : Option String
  tech : Option String
  link : Option String
deriving DecidableEq, Repr

/-- Request body of POST /experience and PUT /experience/:id. -/
structure ExperienceBody where
  role : Option String
  company : Option String
  duration : Option String
  description : Option String
deriving DecidableEq, Repr

/-- Request body of POST /contact/submit; `date` defaults to the clock when
absent. -/
structure SubmissionBody where
  name : String
  email : String
  message : String
  date : Option Nat
deriving DecidableEq, Repr

/-- Insert into a list already sorted by descending key. -/
def insertDesc (key : α → Nat) (x : α) : List α → List α
  | [] => [x]
  | y :: ys => if key y ≤ key x then x :: y :: ys else y :: insertDesc key x ys

/-- Sort a list by descending key (the store sort with direction -1). -/
def sortDesc (key : α → Nat) : List α → List α
  | [] => []
  | x :: xs => insertDesc key x (sortDesc key xs)

/-- GET /content: About (or the default fallback), projects and experience
newest first, and the flat skill-name list. -/
def getContent (s : Store) : Resp × Store :=
  let about := (s.abouts.head?).getD { title := "About Me", text := "" }
  let projects := sortDesc ProjectRec.createdAt s.projects
  let experience := sortDesc ExperienceRec.createdAt s.experiences
  let skills := s.skills.map SkillRec.name
  (Resp.ok (Body.content about projects experience skills), s)

/-- POST /login: find the administrator by email, compare the password
against the stored hash, and on success sign a token embedding the admin id
with a one-day validity window. -/
def login (email password secret : String) (now : Nat) (s : Store) :
    Resp × Store :=
  match s.admins.find? (fun a => a.email == email) with
  | some admin =>
    if bcryptCompare password admin.password then
      (Resp.ok (Body.token (signToken secret admin.id (now + 86400))), s)
    else
      (Resp.error 401 "Invalid credentials", s)
  | none => (Resp.error 401 "Invalid credentials", s)

/-- PUT /about: upsert — mutate the found record in place, or create one
from the payload when none exists. -/
def updateAbout (b : AboutBody) (s : Store) : Resp × Store :=
  match s.abouts with
  | _about :: rest =>
    let about' : AboutRec := { title := b.title, text := b.text }
    (Resp.ok (Body.about about'), { s with abouts := about' :: rest })
  | [] =>
    let about : AboutRec := { title := b.title, text := b.text }
    (Resp.ok (Body.about about), { s with abouts := [about] })

/-- Ordered insertMany of skill names against the unique-name constraint:
insert until the first duplicate; the flag is false when a duplicate was
hit and the write errored. -/
def insertSkills (acc : List SkillRec) : List String → List SkillRec × Bool
  | [] => (acc, true)
  | n :: rest =>
    if acc.any (fun r => r.name == n) then (acc, false)
    else insertSkills (acc ++ [{ name := n }]) rest

/-- PUT /skills: deleteMany all skills, then insertMany the given names;
on success respond with the inserted names, on a duplicate-key write error
respond with the 500 skills-update error (the deletion has already
happened). -/
def updateSkills (names : List String) (s : Store) : Resp × Store :=
  let (inserted, okFlag) := insertSkills [] names
  let s' := { s with skills := inserted }
  if okFlag then (Resp.ok (Body.names (inserted.map SkillRec.name)), s')
  else (Resp.error 500 "Skills update error", s')

/-- The project record built by POST /projects from the form fields, the
optional uploaded file and the fresh id. -/
def newProjectRec (b : ProjectBody) (file : Option String) (now id : Nat) :
    ProjectRec :=
  { id := id, title := b.title, description := b.description,
    tech := b.tech, link := b.link,
    image := file.map (fun f => "/uploads/" ++ f), createdAt := now }

/-- POST /projects: create a project from the form fields; when a file was
uploaded its stored path is attached as the image field. -/
def addProject (b : ProjectBody) (file : Option String) (now : Nat)
    (s : Store) : Resp × Store :=
  let p := newProjectRec b file now s.nextId
  (Resp.ok (Body.project p),
   { s with projects := s.projects ++ [p], nextId := s.nextId + 1 })

/-- The field-wise $set applied by findByIdAndUpdate on a project: fields
present in the payload are overwritten, absent fields are kept; an uploaded
file overwrites the image field, otherwise the image is untouched. -/
def applyProjectUpdate (b : ProjectBody) (file : Option String)
    (p : ProjectRec) : ProjectRec :=
  { p with
    title := match b.title with | some t => some t | none => p.title,
    description :=
      match b.description with | some d => some d | none => p.description,
    tech := match b.tech with | some t => some t | none => p.tech,
    link := match b.link with | some l => some l | none => p.link,
    image :=
      match file with | some f => some ("/uploads/" ++ f) | none => p.image }

/-- PUT /projects/:id: findByIdAndUpdate with new:true — when the id
matches, update and respond with the new record; when nothing matches the
call yields null and the handler responds 200 with a null body. -/
def updateProject (id : Nat) (b : ProjectBody) (file : Option String)
    (s : Store) : Resp × Store :=
  match s.projects.find? (fun p => p.id == id) with
  | some p =>
    let p' := applyProjectUpdate b file p
    (Resp.ok (Body.projectOrNull (some p')),
     { s with projects := s.projects.map (fun q => if q.id == id then p' else q) })
  | none => (Resp.ok (Body.projectOrNull none), s)

/-- DELETE /projects/:id: findByIdAndDelete (no error on zero matches),
then acknowledge. -/
def deleteProject (id : Nat) (s : Store) : Resp × Store :=
  (Resp.ok (Body.msg "Deleted"),
   { s with projects := s.projects.filter (fun p => p.id != id) })

/-- POST /experience: plain create from the body. -/
def addExperience (b : ExperienceBody) (now : Nat) (s : Store) :
    Resp × Store :=
  let e : ExperienceRec :=
    { id := s.nextId, role := b.role, company := b.company,
      duration := b.duration, description := b.description, createdAt := now }
  (Resp.ok (Body.experience e),
   { s with experiences := s.experiences ++ [e], nextId := s.nextId + 1 })

/-- The field-wise $set applied by findByIdAndUpdate on an experience. -/
def applyExperienceUpdate (b : ExperienceBody) (e : ExperienceRec) :
    ExperienceRec :=
  { e with
    role := match b.role with | some r => some r | none => e.role,
    company := match b.company with | some c => some c | none => e.company,
    duration := match b.duration with | some d => some d | none => e.duration,
    description :=
      match b.description with | some d => some d | none => e.description }

/-- PUT /experience/:id: findByIdAndUpdate with new:true; a missing id
yields null and a 200 response with a null body. -/
def updateExperience (id : Nat) (b : ExperienceBody) (s : Store) :
    Resp × Store :=
  match s.experiences.find? (fun e => e.id == id) with
  | some e =>
    let e' := applyExperienceUpdate b e
    (Resp.ok (Body.experienceOrNull (some e')),
     { s with experiences :=
        s.experiences.map (fun f => if f.id == id then e' else f) })
  | none => (Resp.ok (Body.experienceOrNull none), s)

/-- DELETE /experience/:id: findByIdAndDelete, then acknowledge. -/
def deleteExperience (id : Nat) (s : Store) : Resp × Store :=
  (Resp.ok (Body.msg "Deleted"),
   { s with experiences := s.experiences.filter (fun e => e.id != id) })

/-- POST /contact/submit: public create; the date defaults to now. -/
def contactSubmit (b : SubmissionBody) (now : Nat) (s : Store) :
    Resp × Store :=
  let sub : SubmissionRec :=
    { id := s.nextId, name := b.name, email := b.email,
      message := b.message, date := b.date.getD now }
  (Resp.ok (Body.msg "Message sent successfully"),
   { s with submissions := s.submissions ++ [sub], nextId := s.nextId + 1 })

/-- GET /contact/submissions: all submissions, newest date first. -/
def getSubmissions (s : Store) : Resp × Store :=
  (Resp.ok (Body.submissions (sortDesc SubmissionRec.date s.submissions)), s)

/-- seedAdmin: count the administrators; when zero, create exactly one from
the configured or default credentials, hashing the password before
storage. -/
def seedAdmin (envEmail envPassword : Option String) (s : Store) : Store :=
  if s.admins.length == 0 then
    let email := envEmail.getD "admin@gmail.com"
    let password := bcryptHash 10 (envPassword.getD "admin123")
    { s with admins := [{ id := s.nextId, email := email, password := password }],
             nextId := s.nextId + 1 }
  else s

/-- The API surface: one constructor per route. -/
inductive ApiRequest where
  | getContent
  | login (email password : String)
  | putAbout (b : AboutBody)
  | putSkills (names : List String)
  | postProjects (b : ProjectBody) (file : Option String)
  | putProject (id : Nat) (b : ProjectBody) (file : Option String)
  | deleteProject (id : Nat)
  | postExperience (b : ExperienceBody)
  | putExperience (id : Nat) (b : ExperienceBody)
  | deleteExperience (id : Nat)
  | contactSubmit (b : SubmissionBody)
  | getSubmissions
deriving DecidableEq, Repr

/-- Whether the route is behind the authenticate middleware. -/
def isProtected : ApiRequest → Bool
  | ApiRequest.getContent => false
  | ApiRequest.login _ _ => false
  | ApiRequest.putAbout _ => true
  | ApiRequest.putSkills _ => true
  | ApiRequest.postProjects _ _ => true
  | ApiRequest.putProject _ _ _ => true
  | ApiRequest.deleteProject _ => true
  | ApiRequest.postExperience _ => true
  | ApiRequest.putExperience _ _ => true
  | ApiRequest.deleteExperience _ => true
  | ApiRequest.contactSubmit _ => false
  | ApiRequest.getSubmissions => true

/-- The authenticate middleware wrapped around a protected handler: on
failure respond 401 with the matching message and never run the handler;
on success run it with the embedded admin id in scope. -/
def withAuth (st : Store) (secret : String) (now : Nat)
    (header : Option String) (handler : Nat → Resp × Store) : Resp × Store :=
  match authenticate st secret now header with
  | AuthResult.missing => (Resp.error 401 missingTokenMsg, st)
  | AuthResult.invalid => (Resp.error 401 invalidTokenMsg, st)
  | AuthResult.ok adminId => handler adminId

/-- Dispatch a request through the router: protected routes go through the
authenticate middleware first. -/
def handle (secret : String) (now : Nat) (header : Option String)
    (req : ApiRequest) (s : Store) : Resp × Store :=
  match req with
  | ApiRequest.getContent => getContent s
  | ApiRequest.login email password => login email password secret now s
  | ApiRequest.putAbout b =>
    withAuth s secret now header (fun _ => updateAbout b s)
  | ApiRequest.putSkills names =>
    withAuth s secret now header (fun _ => updateSkills names s)
  | ApiRequest.postProjects b file =>
    withAuth s secret now header (fun _ => addProject b file now s)
  | ApiRequest.putProject id b file =>
    withAuth s secret now header (fun _ => updateProject id b file s)
  | ApiRequest.deleteProject id =>
    withAuth s secret now header (fun _ => deleteProject id s)
  | ApiRequest.postExperience b =>
    withAuth s secret now header (fun _ => addExperience b now s)
  | ApiRequest.putExperience id b =>
    withAuth s secret now header (fun _ => updateExperience id b s)
  | ApiRequest.deleteExperience id =>
    withAuth s secret now header (fun _ => deleteExperience id s)
  | ApiRequest.contactSubmit b => contactSubmit b now s
  | ApiRequest.getSubmissions =>
    withAuth s secret now header (fun _ => getSubmissions s)

/-- Iterated update-about calls, for stating the singleton invariant over
any sequence of calls. -/
def updateAboutSeq (bs : List AboutBody) (s : Store) : Store :=
  bs.foldl (fun st b => (updateAbout b st).2) s

/-- A store holding exactly the seeded default administrator. -/
def adminStore1 : Store :=
  { emptyStore with
    admins := [{ id := 0, email := "admin@gmail.com",
                 password := bcryptHash 10 "admin123" }],
    nextId := 1 }

/-- A project body with every form field absent. -/
def emptyProjectBody : ProjectBody :=
  { title := none, description := none, tech := none, link := none }

/-- An experience body with every field absent. -/
def emptyExperienceBody : ExperienceBody :=
  { role := none, company := none, duration := none, description := none }

/-- A sample project record with id 5 and a stored image path. -/
def proj5 : ProjectRec :=
  { id := 5, title := some "P", description := none, tech := none,
    link := none, image := some "/uploads/old.png", createdAt := 3 }

/-- A store holding one project and one experience entry, both with id 5. -/
def sampleStore : Store :=
  { emptyStore with
    projects := [proj5],
    experiences := [{ id := 5, role := some "Dev", company := some "Acme",
                      duration := none, description := none, createdAt := 4 }],
    nextId := 6 }

end Portfolio

namespace Portfolio

theorem jwtVerify_eq_none_iff (tok secret : String) (now : Nat) :
    jwtVerify tok secret now = none ↔
      tokenSigOk tok secret = false ∨ tokenExpired tok now = true := by
  unfold jwtVerify tokenSigOk tokenExpired
  cases h : parseToken tok with
  | none => simp
  | some t =>
    obtain ⟨id, exp, sig⟩ := t
    by_cases hs : sig = sigOf secret id exp <;>
      by_cases he : now < exp <;> simp [hs, he] <;> omega

theorem jwtVerify_eq_some_id (tok secret : String) (now id : Nat)
    (h : jwtVerify tok secret now = some id) : tokenId tok = some id := by
  unfold jwtVerify at h
  unfold tokenId
  cases hp : parseToken tok with
  | none => simp [hp] at h
  | some t =>
    obtain ⟨i, e, g⟩ := t
    simp only [hp] at h
    split at h
    · simp only [Option.some.injEq] at h
      simp [hp, h]
    · exact absurd h (by simp)

/-- C3: session validation fails with the missing-token error exactly when
no bearer token is present in the Bearer header format; fails with the
invalid-or-expired error exactly when a token is present whose signature
does not verify or whose expiry has passed; otherwise succeeds with exactly
the administrator identifier embedded in the token, which the middleware
passes to the handler; and the two failure messages are distinct. -/
theorem validate_session_cases (st : Store) (secret : String) (now : Nat)
    (header : Option String) :
    (authenticate st secret now header = AuthResult.missing ↔
      bearerToken header = none)
  ∧ (authenticate st secret now header = AuthResult.invalid ↔
      ∃ tok, bearerToken header = some tok ∧
        (tokenSigOk tok secret = false ∨ tokenExpired tok now = true))
  ∧ (∀ id, authenticate st secret now header = AuthResult.ok id ↔
      ∃ tok, bearerToken header = some tok ∧
        jwtVerify tok secret now = some id)
  ∧ (∀ tok id, jwtVerify tok secret now = some id → tokenId tok = some id)
  ∧ (∀ handler : Nat → Resp × Store, ∀ id,
      authenticate st secret now header = AuthResult.ok id →
      withAuth st secret now header handler = handler id)
  ∧ missingTokenMsg ≠ invalidTokenMsg := by
  refine ⟨?_, ?_, ?_, ?_, ?_, by decide⟩
  · cases header with
    | none => simp [authenticate, bearerToken]
    | some h =>
      by_cases hb : startsWithBearer h
      · simp only [authenticate, bearerToken, hb, if_true]
        cases hv : jwtVerify ((jsSplit ' ' h).getD 1 "") secret now <;> simp
      · simp [authenticate, bearerToken, hb]
  · cases header with
    | none => simp [authenticate, bearerToken]
    | some h =>
      by_cases hb : startsWithBearer h
      · simp only [authenticate, bearerToken, hb, if_true]
        cases hv : jwtVerify ((jsSplit ' ' h).getD 1 "") secret now with
        | none =>
          constructor
          · intro _
            exact ⟨_, rfl, (jwtVerify_eq_none_iff _ _ _).mp hv⟩
          · intro _
            simp
        | some i =>
          constructor
          · intro hcontra; exact absurd hcontra (by simp)
          · rintro ⟨tok, htok, hbad⟩
            have hnone := (jwtVerify_eq_none_iff tok secret now).mpr hbad
            simp only [Option.some.injEq] at htok
            rw [← htok] at hnone
            rw [hnone] at hv
            exact absurd hv (by simp)
      · simp [authenticate, bearerToken, hb]
  · intro id
    cases header with
    | none => simp [authenticate, bearerToken]
    | some h =>
      by_cases hb : startsWithBearer h
      · simp only [authenticate, bearerToken, hb, if_true]
        cases hv : jwtVerify ((jsSplit ' ' h).getD 1 "") secret now <;>
          simp_all
      · simp [authenticate, bearerToken, hb]
  · exact fun tok id h => jwtVerify_eq_some_id tok secret now id h
  · intro handler id h
    unfold withAuth
    rw [h]

/-- Witness for C3 at concrete inputs: an absent header is classified as
missing, and a well-signed unexpired token is accepted with its embedded
id. -/
theorem validate_session_cases_witness :
    authenticate emptyStore "sec" 0 none = AuthResult.missing
  ∧ authenticate emptyStore "sec" 10
      (some ("Bearer " ++ signToken "sec" 7 99)) = AuthResult.ok 7 :=
  ⟨(validate_session_cases emptyStore "sec" 0 none).1.mpr rfl,
   ((validate_session_cases emptyStore "sec" 10
      (some ("Bearer " ++ signToken "sec" 7 99))).2.2.1 7).mpr
     ⟨signToken "sec" 7 99, by decide, by decide⟩⟩

/-- C1: on any protected endpoint, when session validation fails the
request is rejected with a 401 response and the document store is left
completely unchanged. -/
theorem protected_reject_no_mutation (secret : String) (now : Nat)
    (header : Option String) (req : ApiRequest) (s : Store)
    (hp : isProtected req = true)
    (hf : authenticate s secret now header = AuthResult.missing ∨
      authenticate s secret now header = AuthResult.invalid) :
    (∃ m, (handle secret now header req s).1 = Resp.error 401 m) ∧
      (handle secret now header req s).2 = s := by
  have key : ∀ handler : Nat → Resp × Store,
      (∃ m, (withAuth s secret now header handler).1 = Resp.error 401 m) ∧
        (withAuth s secret now header handler).2 = s := by
    intro handler
    rcases hf with hf | hf <;> simp [withAuth, hf]
  cases req <;>
    first
      | (simp only [handle]; exact key _)
      | simp [isProtected] at hp

/-- Witness for C1: PUT /skills with no Authorization header on the empty
store is rejected with a 401 and the store is untouched. -/
theorem protected_reject_no_mutation_witness :
    (∃ m, (handle "sec" 0 none (ApiRequest.putSkills ["Go"]) emptyStore).1 =
      Resp.error 401 m) ∧
      (handle "sec" 0 none (ApiRequest.putSkills ["Go"]) emptyStore).2 =
        emptyStore :=
  protected_reject_no_mutation "sec" 0 none (ApiRequest.putSkills ["Go"])
    emptyStore rfl (Or.inl rfl)

/-- C2: a login whose email matches no administrator and a login whose
email matches but whose password fails hash verification produce the
identical InvalidCredentials outcome, with nothing distinguishing the two
cases. -/
theorem login_invalid_credentials_indistinguishable (s : Store)
    (email password secret : String) (now : Nat) :
    (s.admins.find? (fun a => a.email == email) = none →
      login email password secret now s =
        (Resp.error 401 "Invalid credentials", s))
  ∧ (∀ a, s.admins.find? (fun a => a.email == email) = some a →
      bcryptCompare password a.password = false →
      login email password secret now s =
        (Resp.error 401 "Invalid credentials", s)) := by
  constructor
  · intro h
    simp [login, h]
  · intro a ha hc
    simp [login, ha, hc]

/-- Witness for C2: against the seeded admin store, an unknown email and a
known email with a wrong password both yield the same failure. -/
theorem login_invalid_credentials_witness :
    login "nobody@x.com" "admin123" "sec" 0 adminStore1 =
      (Resp.error 401 "Invalid credentials", adminStore1)
  ∧ login "admin@gmail.com" "wrongpw" "sec" 0 adminStore1 =
      (Resp.error 401 "Invalid credentials", adminStore1) :=
  ⟨(login_invalid_credentials_indistinguishable adminStore1
      "nobody@x.com" "admin123" "sec" 0).1 (by decide),
   (login_invalid_credentials_indistinguishable adminStore1
      "admin@gmail.com" "wrongpw" "sec" 0).2
     { id := 0, email := "admin@gmail.com",
       password := bcryptHash 10 "admin123" } (by decide) (by decide)⟩

/-- C10: session validation depends only on the presented header, the
signing secret and the clock, never on the document store: for any two
store states, including one with every administrator deleted, the
authenticate step yields the same decision and embedded identifier. -/
theorem authenticate_store_independent (s1 s2 : Store) (secret : String)
    (now : Nat) (header : Option String) :
    authenticate s1 secret now header = authenticate s2 secret now header :=
  rfl

theorem updateAbout_abouts_le_one (b : AboutBody) (s : Store)
    (h : s.abouts.length ≤ 1) : ((updateAbout b s).2).abouts.length ≤ 1 := by
  unfold updateAbout
  cases hs : s.abouts with
  | nil => simp
  | cons a rest =>
    rw [hs] at h
    simp only [List.length_cons] at h ⊢
    omega

/-- C4: update-about is an upsert that never creates a second About record:
from an empty collection it creates exactly one, from a nonempty collection
it replaces the first record in place, any sequence of calls preserves the
at-most-one invariant, and two consecutive calls from empty leave exactly
one record. -/
theorem update_about_upsert_singleton (b b2 : AboutBody) (s : Store) :
    (s.abouts = [] →
      ((updateAbout b s).2).abouts = [{ title := b.title, text := b.text }])
  ∧ (∀ a rest, s.abouts = a :: rest →
      ((updateAbout b s).2).abouts =
        { title := b.title, text := b.text } :: rest)
  ∧ (∀ bs : List AboutBody, s.abouts.length ≤ 1 →
      (updateAboutSeq bs s).abouts.length ≤ 1)
  ∧ (s.abouts = [] →
      ((updateAbout b2 ((updateAbout b s).2)).2).abouts.length = 1) := by
  refine ⟨?_, ?_, ?_, ?_⟩
  · intro h
    simp [updateAbout, h]
  · intro a rest h
    simp [updateAbout, h]
  · intro bs
    induction bs generalizing s with
    | nil =>
      intro h
      simpa [updateAboutSeq] using h
    | cons b0 rest ih =>
      intro h
      have hstep := updateAbout_abouts_le_one b0 s h
      simpa [updateAboutSeq] using ih _ hstep
  · intro h
    simp [updateAbout, h]

/-- Witness for C4: updating About twice from the empty store leaves
exactly one record. -/
theorem update_about_upsert_singleton_witness :
    ((updateAbout { title := "T", text := "X" } emptyStore).2).abouts =
      [{ title := "T", text := "X" }]
  ∧ ((updateAbout { title := "U", text := "Y" }
      ((updateAbout { title := "T", text := "X" } emptyStore).2)).2).abouts.length
      = 1 :=
  ⟨(update_about_upsert_singleton { title := "T", text := "X" }
      { title := "U", text := "Y" } emptyStore).1 rfl,
   (update_about_upsert_singleton { title := "T", text := "X" }
      { title := "U", text := "Y" } emptyStore).2.2.2 rfl⟩

theorem insertSkills_nodup (names : List String) (acc : List SkillRec)
    (h : ((acc.map SkillRec.name) ++ names).Nodup) :
    insertSkills acc names =
      (acc ++ names.map (fun n => { name := n }), true) := by
  induction names generalizing acc with
  | nil => simp [insertSkills]
  | cons n rest ih =>
    have hmem : n ∉ acc.map SkillRec.name := by
      rcases List.nodup_append.mp h with ⟨-, -, hdisj⟩
      intro hin
      exact hdisj hin (List.mem_cons_self _ _)
    have hn : acc.any (fun r => r.name == n) = false := by
      rw [List.any_eq_false]
      intro r hr
      simp only [beq_iff_eq]
      intro heq
      exact hmem (heq ▸ List.mem_map_of_mem SkillRec.name hr)
    have h' : (((acc ++ [({ name := n } : SkillRec)]).map SkillRec.name)
        ++ rest).Nodup := by
      simpa [List.append_assoc] using h
    simp only [insertSkills, hn, Bool.false_eq_true, if_false, ih _ h']
    simp

/-- C5: with distinct input names, replace-skills clears every stored Skill
record, stores exactly the given names, responds with that name list, and a
subsequent read-all-content reports exactly those names as the skill
list. -/
theorem replace_skills_replaces_all (names : List String) (s : Store)
    (h : names.Nodup) :
    updateSkills names s =
      (Resp.ok (Body.names names),
        { s with skills := names.map (fun n => { name := n }) })
  ∧ (∃ a ps es, (getContent ((updateSkills names s).2)).1 =
      Resp.ok (Body.content a ps es names)) := by
  have hins := insertSkills_nodup names [] (by simpa using h)
  have hmapname : ∀ l : List String,
      l.map (SkillRec.name ∘ fun n => ({ name := n } : SkillRec)) = l := by
    intro l
    induction l with
    | nil => rfl
    | cons x xs ih => simp only [List.map_cons, Function.comp_apply, ih]
  have h1 : updateSkills names s =
      (Resp.ok (Body.names names),
        { s with skills := names.map (fun n => { name := n }) }) := by
    unfold updateSkills
    rw [hins]
    simp [hmapname]
  refine ⟨h1, ?_⟩
  rw [h1]
  refine ⟨(s.abouts.head?).getD { title := "About Me", text := "" },
    sortDesc ProjectRec.createdAt s.projects,
    sortDesc ExperienceRec.createdAt s.experiences, ?_⟩
  simp [getContent, hmapname]

/-- Witness for C5 at the concrete input from the specification. -/
theorem replace_skills_replaces_all_witness :
    updateSkills ["Go", "Rust"] emptyStore =
      (Resp.ok (Body.names ["Go", "Rust"]),
        { emptyStore with
          skills := ["Go", "Rust"].map (fun n => { name := n }) })
  ∧ (∃ a ps es,
      (getContent ((updateSkills ["Go", "Rust"] emptyStore).2)).1 =
        Resp.ok (Body.content a ps es ["Go", "Rust"])) :=
  replace_skills_replaces_all ["Go", "Rust"] emptyStore (by decide)

/-- C6: a create or update carrying an uploaded file stores the upload-path
image, overwriting any prior value; a create without a file leaves the
image unset; an update without a file preserves the prior image and every
field absent from the payload. -/
theorem project_image_field (b : ProjectBody) (f : String) (now : Nat)
    (s : Store) :
    ((addProject b (some f) now s).2.projects =
      s.projects ++ [newProjectRec b (some f) now s.nextId])
  ∧ (newProjectRec b (some f) now s.nextId).image = some ("/uploads/" ++ f)
  ∧ (newProjectRec b none now s.nextId).image = none
  ∧ ((addProject b none now s).2.projects =
      s.projects ++ [newProjectRec b none now s.nextId])
  ∧ (∀ p : ProjectRec, (applyProjectUpdate b (some f) p).image =
      some ("/uploads/" ++ f))
  ∧ (∀ p : ProjectRec, (applyProjectUpdate b none p).image = p.image)
  ∧ (∀ p : ProjectRec, b.title = none →
      (applyProjectUpdate b none p).title = p.title)
  ∧ (∀ p : ProjectRec, b.description = none →
      (applyProjectUpdate b none p).description = p.description)
  ∧ (∀ p : ProjectRec, b.tech = none →
      (applyProjectUpdate b none p).tech = p.tech)
  ∧ (∀ p : ProjectRec, b.link = none →
      (applyProjectUpdate b none p).link = p.link)
  ∧ (∀ i p, s.projects.find? (fun q => q.id == i) = some p →
      updateProject i b none s =
        (Resp.ok (Body.projectOrNull (some (applyProjectUpdate b none p))),
          { s with projects := (s.projects.map
              (fun q => if q.id == i then applyProjectUpdate b none p
                        else q)) })) := by
  refine ⟨rfl, rfl, rfl, rfl, fun p => rfl, fun p => rfl,
    ?_, ?_, ?_, ?_, ?_⟩
  · intro p ht
    simp [applyProjectUpdate, ht]
  · intro p hd
    simp [applyProjectUpdate, hd]
  · intro p ht
    simp [applyProjectUpdate, ht]
  · intro p hl
    simp [applyProjectUpdate, hl]
  · intro i p hfind
    simp [updateProject, hfind]

/-- Witness for C6: a concrete create stores the upload path, and a
concrete update without a file keeps the old image. -/
theorem project_image_field_witness :
    (newProjectRec emptyProjectBody (some "pic.png") 0
      emptyStore.nextId).image = some ("/uploads/" ++ "pic.png")
  ∧ (applyProjectUpdate emptyProjectBody none proj5).image = proj5.image
  ∧ updateProject 5 emptyProjectBody none sampleStore =
      (Resp.ok (Body.projectOrNull
          (some (applyProjectUpdate emptyProjectBody none proj5))),
        { sampleStore with projects := (sampleStore.projects.map
            (fun q => if q.id == 5 then
                applyProjectUpdate emptyProjectBody none proj5
              else q)) }) :=
  ⟨(project_image_field emptyProjectBody "pic.png" 0 emptyStore).2.1,
   (project_image_field emptyProjectBody "pic.png" 0 sampleStore).2.2.2.2.2.1
     proj5,
   (project_image_field emptyProjectBody "pic.png" 0
      sampleStore).2.2.2.2.2.2.2.2.2.2 5 proj5 rfl⟩

/-- C7: deleting a project or an experience by an identifier that matches
no record still returns the success acknowledgment and leaves the store
unchanged. -/
theorem delete_missing_id_success (s : Store) (i : Nat)
    (hp : ∀ p ∈ s.projects, p.id ≠ i)
    (he : ∀ e ∈ s.experiences, e.id ≠ i) :
    deleteProject i s = (Resp.ok (Body.msg "Deleted"), s)
  ∧ deleteExperience i s = (Resp.ok (Body.msg "Deleted"), s) := by
  have h1 : s.projects.filter (fun p => p.id != i) = s.projects :=
    List.filter_eq_self.mpr (fun p hm => by simpa using hp p hm)
  have h2 : s.experiences.filter (fun e => e.id != i) = s.experiences :=
    List.filter_eq_self.mpr (fun e hm => by simpa using he e hm)
  constructor
  · unfold deleteProject
    rw [h1]
  · unfold deleteExperience
    rw [h2]

/-- Witness for C7: deleting id 99 from the sample store acknowledges and
changes nothing. -/
theorem delete_missing_id_success_witness :
    deleteProject 99 sampleStore = (Resp.ok (Body.msg "Deleted"), sampleStore)
  ∧ deleteExperience 99 sampleStore =
      (Resp.ok (Body.msg "Deleted"), sampleStore) :=
  delete_missing_id_success sampleStore 99 (by decide) (by decide)

/-- C8 counterexample: updating a project or an experience whose id matches
no record yields a 200 success with a null body, not a failure response of
any class. -/
theorem update_missing_id_not_failure_counterexample :
    (updateProject 0 emptyProjectBody none emptyStore).1 =
      Resp.ok (Body.projectOrNull none)
  ∧ (updateProject 0 emptyProjectBody none emptyStore).1.isErr = false
  ∧ (updateExperience 0 emptyExperienceBody emptyStore).1 =
      Resp.ok (Body.experienceOrNull none)
  ∧ (updateExperience 0 emptyExperienceBody emptyStore).1.isErr = false := by
  decide

/-- C8 amended: an update whose target identifier matches no record is not
a failure and not a distinct not-found: findByIdAndUpdate yields null and
the handler responds 200 with a null body, leaving the store unchanged. -/
theorem update_missing_id_null_success (i : Nat) (b : ProjectBody)
    (file : Option String) (eb : ExperienceBody) (s : Store)
    (hp : s.projects.find? (fun p => p.id == i) = none)
    (he : s.experiences.find? (fun e => e.id == i) = none) :
    updateProject i b file s = (Resp.ok (Body.projectOrNull none), s)
  ∧ updateExperience i eb s =
      (Resp.ok (Body.experienceOrNull none), s) := by
  constructor
  · simp [updateProject, hp]
  · simp [updateExperience, he]

/-- Witness for the amended C8 at the empty store. -/
theorem update_missing_id_null_success_witness :
    updateProject 0 emptyProjectBody none emptyStore =
      (Resp.ok (Body.projectOrNull none), emptyStore)
  ∧ updateExperience 0 emptyExperienceBody emptyStore =
      (Resp.ok (Body.experienceOrNull none), emptyStore) :=
  update_missing_id_null_success 0 emptyProjectBody none
    emptyExperienceBody emptyStore rfl rfl

theorem bcryptHash_ne_plain (p : String) : bcryptHash 10 p ≠ p := by
  intro h
  have hlen := congrArg String.length h
  have h4 : "$2b$".length = 4 := by decide
  have h2 : (toString (10 : Nat)).length = 2 := by decide
  have h1 : "$".length = 1 := by decide
  rw [bcryptHash, String.length_append, String.length_append,
    String.length_append, h4, h2, h1] at hlen
  omega

/-- C9: the bootstrap creates exactly one administrator with the configured
or default email and the hash of the configured or default password — never
the plaintext — exactly when no administrator exists, and a second run
leaves the count at one. -/
theorem seed_admin_bootstrap (envE envP : Option String) (s : Store) :
    (s.admins = [] →
      (seedAdmin envE envP s).admins =
        [{ id := s.nextId, email := envE.getD "admin@gmail.com",
           password := bcryptHash 10 (envP.getD "admin123") }])
  ∧ bcryptHash 10 (envP.getD "admin123") ≠ envP.getD "admin123"
  ∧ (s.admins ≠ [] → seedAdmin envE envP s = s)
  ∧ (s.admins = [] →
      (seedAdmin envE envP (seedAdmin envE envP s)).admins.length = 1) := by
  refine ⟨?_, bcryptHash_ne_plain _, ?_, ?_⟩
  · intro h
    simp [seedAdmin, h]
  · intro h
    simp [seedAdmin, List.length_eq_zero, h]
  · intro h
    simp [seedAdmin, h]

/-- Witness for C9: seeding the empty store with no configuration creates
the default administrator, and a second run keeps a single one. -/
theorem seed_admin_bootstrap_witness :
    (seedAdmin none none emptyStore).admins =
      [{ id := 0, email := "admin@gmail.com",
         password := bcryptHash 10 "admin123" }]
  ∧ (seedAdmin none none (seedAdmin none none emptyStore)).admins.length
      = 1 :=
  ⟨(seed_admin_bootstrap none none emptyStore).1 rfl,
   (seed_admin_bootstrap none none emptyStore).2.2.2 rfl⟩

end Portfolio
